import Mathlib

/-!
Verification of the PBS lookup tool (src/pbs_lookup_app.py) against its
natural-language specification.  The pure computational content of the
script is embedded below: Python string operations are modelled on
`List Char` / `String`, JSON records as structures with `Option` fields
(absent key or JSON null becomes `none`), and the HTTP layer as explicit
outcome values fed to the functions that consume responses.
-/

/-! ## Python string primitives -/

/-- Whitespace class used by Python regular expressions and str.strip,
restricted to the ASCII whitespace characters that occur in the data. -/
def pyIsSpace (c : Char) : Bool :=
  c = ' ' || c = '\t' || c = '\n' || c = '\r' || c = '\x0b' || c = '\x0c'

/-- True when the first list is an initial segment of the second. -/
def takeMatch : List Char → List Char → Bool
  | [], _ => true
  | _ :: _, [] => false
  | a :: n, b :: h => a = b && takeMatch n h

/-- Python substring containment: true when the needle occurs somewhere in
the haystack, the semantics of the expression needle in hay. -/
def findIn (needle : List Char) : List Char → Bool
  | [] => needle.isEmpty
  | c :: rest => takeMatch needle (c :: rest) || findIn needle rest

/-- Python str.replace on char lists: replace every non-overlapping
occurrence of pat by rep, scanning left to right.  The fuel argument is an
upper bound on the input length, which makes the recursion structural. -/
def replaceFuel (pat rep : List Char) : Nat → List Char → List Char
  | 0, l => l
  | _ + 1, [] => []
  | n + 1, c :: rest =>
    if !pat.isEmpty && takeMatch pat (c :: rest) then
      rep ++ replaceFuel pat rep n (List.drop (pat.length - 1) rest)
    else
      c :: replaceFuel pat rep n rest

/-- Python str.replace. -/
def pyReplace (s pat rep : String) : String :=
  (replaceFuel pat.toList rep.toList s.toList.length s.toList).asString

/-- Lower-case a string character by character (Python str.lower on the
ASCII data this program handles). -/
def pyLower (s : String) : String :=
  (s.toList.map Char.toLower).asString

/-- Upper-case a string character by character (Python str.upper on the
ASCII data this program handles). -/
def pyUpper (s : String) : String :=
  (s.toList.map Char.toUpper).asString

/-- Python str.strip: drop leading and trailing whitespace. -/
def pyStrip (s : String) : String :=
  ((((s.toList.dropWhile pyIsSpace).reverse).dropWhile pyIsSpace).reverse).asString

/-- Python or on two strings: the empty string is falsy, so a or b yields
b exactly when a is empty. -/
def pyOr (a b : String) : String :=
  if a = "" then b else a

/-- Python or with an optional left operand: None and the empty string are
both falsy, so item.get(k) or b yields b in those cases. -/
def pyOrOpt (a : Option String) (b : String) : String :=
  match a with
  | none => b
  | some s => if s = "" then b else s

/-! ## The restriction-text normalization pipeline
(src/pbs_lookup_app.py lines 126-144, inside get_restriction_texts) -/

/-- Scanner for the tail of a tag candidate: given the characters after an
opening angle bracket and its first gap character, return how many further
characters a match of the regular expression consumes, counting the
closing angle bracket.  The gap is extended lazily, may not contain
another opening bracket, and ends at the first closing bracket. -/
def tagScanLen : List Char → Option Nat
  | [] => none
  | c :: rest =>
    if c = '>' then some 1
    else if c = '<' then none
    else match tagScanLen rest with
         | some k => some (k + 1)
         | none => none

/-- Given the characters after an opening angle bracket, return how many of
them the regular expression match consumes (at least one gap character,
then the first closing bracket), or none when no match starts here. -/
def tagMatchLen : List Char → Option Nat
  | [] => none
  | c :: rest =>
    if c = '<' then none
    else match tagScanLen rest with
         | some k => some (k + 1)
         | none => none

/-- Removal of the remaining markup tags, the re.sub call on line 134 with
pattern angle bracket, one or more non-angle characters lazily, closing
bracket.  Fuel bounds the input length. -/
def stripTagsFuel : Nat → List Char → List Char
  | 0, l => l
  | _ + 1, [] => []
  | n + 1, c :: rest =>
    if c = '<' then
      match tagMatchLen rest with
      | some k => stripTagsFuel n (List.drop k rest)
      | none => '<' :: stripTagsFuel n rest
    else c :: stripTagsFuel n rest

def stripTags (l : List Char) : List Char :=
  stripTagsFuel l.length l

/-- Collapse of three or more newlines, the re.sub call on line 137: at a
newline whose maximal whitespace run contains at least three newlines, the
greedy match extends to the last newline of the run and is replaced by two
newlines.  Fuel bounds the input length. -/
def collapseNewlinesFuel : Nat → List Char → List Char
  | 0, l => l
  | _ + 1, [] => []
  | n + 1, c :: rest =>
    if c = '\n' then
      let run := (c :: rest).takeWhile pyIsSpace
      if 3 ≤ run.count '\n' then
        let tailWs := (run.reverse.takeWhile (fun x => x ≠ '\n')).length
        '\n' :: '\n' :: collapseNewlinesFuel n (List.drop (run.length - tailWs - 1) rest)
      else c :: collapseNewlinesFuel n rest
    else c :: collapseNewlinesFuel n rest

def collapseNewlines (l : List Char) : List Char :=
  collapseNewlinesFuel l.length l

/-- Collapse of runs of spaces to a single space, the re.sub call on
line 138. -/
def collapseSpacesFuel : Nat → List Char → List Char
  | 0, l => l
  | _ + 1, [] => []
  | n + 1, c :: rest =>
    if c = ' ' then
      ' ' :: collapseSpacesFuel n (rest.dropWhile (fun x => x = ' '))
    else c :: collapseSpacesFuel n rest

def collapseSpaces (l : List Char) : List Char :=
  collapseSpacesFuel l.length l

/-- The full cleanup pipeline applied to a restriction text, lines 126-144:
literal tag replacements, tag stripping, newline and space collapsing,
entity decoding, final strip. -/
def normalize_text (text : String) : String :=
  let t := pyReplace (pyReplace (pyReplace text "<br>" "\n") "<br/>" "\n") "<br />" "\n"
  let t := pyReplace (pyReplace t "</p>" "\n\n") "<p>" ""
  let t := pyReplace (pyReplace t "</li>" "\n") "<li>" "• "
  let t := pyReplace (pyReplace t "</div>" "\n") "<div>" ""
  let t := (stripTags t.toList).asString
  let t := (collapseNewlines t.toList).asString
  let t := (collapseSpaces t.toList).asString
  let t := pyReplace (pyReplace t "&nbsp;" " ") "&amp;" "&"
  let t := pyReplace (pyReplace t "&lt;" "<") "&gt;" ">"
  pyStrip t

/-! ## Data model
JSON records are embedded as structures whose fields are Option-valued:
none stands for an absent key (or JSON null), matching dict.get. -/

/-- One entry of the schedules response (the version list). -/
structure Schedule where
  schedule_code : Option Int
  effective_date : Option String
deriving DecidableEq, Repr

/-- One entry of the items response. -/
structure Item where
  pbs_code : Option String
  code : Option String
  li_drug_name : Option String
  drug_name : Option String
  program_code : Option String
  benefit_type_code : Option String
deriving DecidableEq, Repr

/-- One row of the item-restriction-relationships response. -/
structure RelRow where
  res_code : Option String
deriving DecidableEq, Repr

/-- One record of the restrictions response. -/
structure RestrictionRec where
  res_code : Option String
  li_html_text : Option String
  schedule_html_text : Option String
  treatment_phase : Option String
  authority_method : Option String
deriving DecidableEq, Repr

/-- An entry of the list built by get_restriction_texts, lines 159-165. -/
structure RestrictionEntry where
  res_code : String
  label : String
  text : String
  treatment_phase : String
  authority_method : String
deriving DecidableEq, Repr

/-! ## Response shapes and the per-site data extraction
Each consumer inspects the parsed JSON: a dict carrying a data key, a bare
top-level array, or anything else. -/

/-- Shape of a parsed JSON response body. -/
inductive ApiResp (α : Type) where
  | objWithData : List α → ApiResp α
  | bare : List α → ApiResp α
  | other : ApiResp α
deriving DecidableEq, Repr

/-- Outcome of one requests.get call followed by response.json: a status
code with a parsed body (none when json parsing raises), or a timeout
(the requests call itself raises). -/
inductive Fetch (α : Type) where
  | resp : Nat → Option (ApiResp α) → Fetch α
  | timeout : Fetch α
deriving DecidableEq, Repr

/-- Extraction of the relationships list, lines 75-80: a dict with data or
a bare list both continue with their contents; any other shape makes the
function return the empty list (modelled as none, the abort path). -/
def extract_relationships {α : Type} : ApiResp α → Option (List α)
  | .objWithData d => some d
  | .bare d => some d
  | .other => none

/-- Extraction of the bulk restrictions list, lines 103-108: dict with
data or bare list accepted; any other shape aborts with the empty list. -/
def extract_restrictions {α : Type} : ApiResp α → Option (List α)
  | .objWithData d => some d
  | .bare d => some d
  | .other => none

/-- Extraction of the schedules list in get_item_by_code, lines 189-193:
only a dict with a data key is accepted, every other shape (a bare array
included) is the unexpected-structure error branch. -/
def extract_schedules_by_code {α : Type} : ApiResp α → Option (List α)
  | .objWithData d => some d
  | _ => none

/-- Extraction of the items list in get_item_by_code, lines 219-233: only a
dict with a data key is accepted, every other shape is the
unexpected-structure error branch. -/
def extract_items_by_code {α : Type} : ApiResp α → Option (List α)
  | .objWithData d => some d
  | _ => none

/-- Extraction of the schedules list in search_items, lines 254-257: only a
dict with a data key is accepted, every other shape returns None. -/
def extract_schedules_search {α : Type} : ApiResp α → Option (List α)
  | .objWithData d => some d
  | _ => none

/-- Extraction of the items list in search_items, line 281: only a dict
with a data key is accepted, every other shape falls through to the
return None on line 295. -/
def extract_items_search {α : Type} : ApiResp α → Option (List α)
  | .objWithData d => some d
  | _ => none

/-! ## Version resolution
Both get_item_by_code (lines 200-201) and search_items (lines 262-263)
pick sorted(schedules, key=lambda x: x.get('schedule_code', 0),
reverse=True)[0]. -/

/-- Sort key of a schedule entry: its schedule_code, with 0 for a missing
field, as in x.get('schedule_code', 0). -/
def skey (s : Schedule) : Int :=
  s.schedule_code.getD 0

/-- Insert an element into a list already sorted by descending key,
placing it after every earlier element of greater or equal key; this makes
the overall sort stable, like Python sorted with reverse=True. -/
def sortDescInsert (x : Schedule) : List Schedule → List Schedule
  | [] => [x]
  | y :: ys => if skey x ≤ skey y then y :: sortDescInsert x ys else x :: y :: ys

/-- Stable sort of the schedule list by descending schedule_code. -/
def sortedByCodeDesc (l : List Schedule) : List Schedule :=
  l.foldl (fun acc x => sortDescInsert x acc) []

/-- The schedule both lookup paths use: first element of the descending
sort, lines 200-201 and 262-263. -/
def latest_schedule (l : List Schedule) : Option Schedule :=
  (sortedByCodeDesc l).head?

/-! ## Item selection and search filtering -/

/-- The item-selection step of get_item_by_code, lines 222-227: filter the
returned items to exact case-insensitive matches on pbs_code, return the
first exact match, and otherwise fall back to the first returned item;
an empty response is the not-found branch. -/
def get_item_by_code_select (item_code : String) (items : List Item) : Option Item :=
  if 0 < items.length then
    match items.filter (fun item => pyUpper (item.pbs_code.getD "") == pyUpper item_code) with
    | exact :: _ => some exact
    | [] => items.head?
  else none

/-- The drug-name string an item is matched against, line 288-289: the
first truthy of li_drug_name, drug_name and the empty string, lowered. -/
def item_drug (item : Item) : String :=
  pyLower (pyOr (pyOrOpt item.li_drug_name (item.drug_name.getD "")) "")

/-- The client-side post-processing of search_items, lines 284-293: when a
drug name was given, keep the items whose drug-name string contains it
case-insensitively, and fall back to the unfiltered list when that filter
keeps nothing (filtered if filtered else items). -/
def search_items_filter (drug_name : String) (items : List Item) : List Item :=
  if drug_name ≠ "" then
    let filtered := items.filter (fun item =>
      findIn (pyLower drug_name).toList (item_drug item).toList)
    if filtered = [] then items else filtered
  else items

/-! ## The authority application formatter, lines 300-305 -/

/-- format_authority_application(item_code, restrictions, provider_num):
the f-string with the provider number bracketed on the first line, the
item code on the second and the restriction text on the third. -/
def format_authority_application (item_code restrictions provider_num : String) : String :=
  "Hospital Provider Number [" ++ provider_num ++ "]\n" ++ item_code ++ "\n" ++ restrictions

/-! ## Restriction resolution (get_restriction_texts, lines 56-173) -/

/-- The res_code values that are truthy, the comprehension on line 86
before the set is taken. -/
def truthyCodes (relationships : List RelRow) : List String :=
  relationships.filterMap (fun r =>
    match r.res_code with
    | some c => if c = "" then none else some c
    | none => none)

/-- Deduplication standing in for list(set(...)) on line 86.  CPython
leaves the resulting order unspecified; first-occurrence order is chosen
here, and nothing downstream depends on more than membership. -/
def pyListSet (l : List String) : List String :=
  l.foldl (fun acc x => if x ∈ acc then acc else acc ++ [x]) []

/-- One pass of the loop body on lines 119-165: turn a matched restriction
record into a list entry, or nothing when its text is empty before or
after cleanup. -/
def build_restriction_entry (r : RestrictionRec) : Option RestrictionEntry :=
  let res_code := r.res_code.getD ""
  let text := pyOrOpt r.li_html_text (r.schedule_html_text.getD "")
  if text = "" then none
  else
    let clean_text := normalize_text text
    if clean_text = "" then none
    else
      let treatment_phase := r.treatment_phase.getD ""
      let authority_method := r.authority_method.getD ""
      let label_parts :=
        (if treatment_phase ≠ "" then [treatment_phase] else []) ++
        (if authority_method ≠ "" then ["(" ++ authority_method ++ ")"] else [])
      let label := if label_parts = [] then res_code
                   else String.intercalate " - " label_parts
      some ⟨res_code, label, clean_text, treatment_phase, authority_method⟩

/-- The single user-visible message the function can emit: the warning in
the except branch on line 172.  The silent early returns emit nothing. -/
def fetchWarning : String :=
  "Could not fetch restriction details"

/-- get_restriction_texts as a function of the two upstream outcomes: the
relationship fetch and the bulk restriction fetch.  Returns the list of
user-visible messages emitted together with the returned restriction
list.  Mirrors the control flow of lines 56-173: a raised timeout or a
json parse error reaches the except branch and warns; a non-200 status or
an unrecognized shape returns the empty list without any message. -/
def get_restriction_texts (rel : Fetch RelRow) (res : Fetch RestrictionRec) :
    List String × List RestrictionEntry :=
  match rel with
  | .timeout => ([fetchWarning], [])
  | .resp status body =>
    if status ≠ 200 then ([], [])
    else
      match body with
      | none => ([fetchWarning], [])
      | some shape =>
        match extract_relationships shape with
        | none => ([], [])
        | some relationships =>
          if relationships.isEmpty then ([], [])
          else
            let restriction_codes := pyListSet (truthyCodes relationships)
            if restriction_codes.isEmpty then ([], [])
            else
              match res with
              | .timeout => ([fetchWarning], [])
              | .resp status2 body2 =>
                if status2 = 200 then
                  match body2 with
                  | none => ([fetchWarning], [])
                  | some shape2 =>
                    match extract_restrictions shape2 with
                    | none => ([], [])
                    | some all_restrictions_list =>
                      let matching := all_restrictions_list.filter (fun r =>
                        match r.res_code with
                        | some c => decide (c ∈ restriction_codes)
                        | none => false)
                      ([], matching.filterMap build_restriction_entry)
                else ([], [])

/-! ## The disambiguation dropdown (display_item_details, lines 367-378) -/

/-- Python dict insertion: an existing key keeps its position and gets the
new value, a new key is appended at the end. -/
def dictInsert (k : String) (v : RestrictionEntry) :
    List (String × RestrictionEntry) → List (String × RestrictionEntry)
  | [] => [(k, v)]
  | (k₁, v₁) :: rest =>
    if k₁ = k then (k, v) :: rest else (k₁, v₁) :: dictInsert k v rest

/-- Key list of a dict in insertion order, list(d.keys()). -/
def dictKeys (d : List (String × RestrictionEntry)) : List String :=
  d.map Prod.fst

/-- Dict lookup, d[k]. -/
def dictFind (k : String) : List (String × RestrictionEntry) → Option RestrictionEntry
  | [] => none
  | (k₁, v₁) :: rest => if k₁ = k then some v₁ else dictFind k rest

/-- The dropdown dict on line 369: a dict comprehension keyed by each
entry's label. -/
def restriction_options (l : List RestrictionEntry) : List (String × RestrictionEntry) :=
  l.foldl (fun d r => dictInsert r.label r d) []

/-- Modelled from the spec: the distinct labels of the candidates in order
of first occurrence, the shape the claim about the dropdown asserts for
its choice set.  To be compared with dictKeys of restriction_options. -/
def firstOccurrences (l : List String) : List String :=
  l.foldl (fun acc x => if x ∈ acc then acc else acc ++ [x]) []

/-! ## The display flow around the formatter (display_item_details) -/

/-- The restriction text the display flow settles on, lines 323-384:
the placeholder when no candidates exist, the single candidate's text when
there is exactly one, and the dropdown selection keyed by label when there
are several.  The selectbox only offers keys of the dict, so the fallback
branch for an unknown label is unreachable in the interface. -/
def selected_restriction_text (restriction_list : List RestrictionEntry)
    (selected_label : String) : String :=
  if 0 < restriction_list.length then
    if 1 < restriction_list.length then
      match dictFind selected_label (restriction_options restriction_list) with
      | some r => r.text
      | none => "No restrictions"
    else ((restriction_list.head?.map RestrictionEntry.text).getD "No restrictions")
  else "No restrictions"

/-- The application block the display flow produces, lines 314-316 and
334-405: some formatted text exactly when the benefit type code is A or S,
and nothing otherwise - for every other benefit type the formatter is
never invoked. -/
def display_application (item_data : Item) (restriction_list : List RestrictionEntry)
    (selected_label provider_number : String) : Option String :=
  let item_code := pyOrOpt item_data.pbs_code (pyOrOpt item_data.code "N/A")
  let benefit_type_code := item_data.benefit_type_code.getD ""
  if benefit_type_code = "A" ∨ benefit_type_code = "S" then
    some (format_authority_application item_code
      (selected_restriction_text restriction_list selected_label) provider_number)
  else none

/-! ## Concrete fixtures used by counterexamples and witnesses -/

def itemOther : Item := ⟨some "99999X", none, none, none, none, none⟩

def itemMatch : Item := ⟨some "12119w", none, none, none, none, none⟩

def itemAbc : Item := ⟨none, none, some "Abc", none, none, none⟩

def itemPembro : Item := ⟨some "11866J", none, some "Pembrolizumab", none, none, none⟩

def itemUnrestricted : Item := ⟨some "12119W", none, none, none, none, some "U"⟩

def schedSample : Schedule := ⟨some 3446, some "2025-09-01"⟩

def entryOne : RestrictionEntry := ⟨"r1", "L", "t1", "", ""⟩

def entryTwo : RestrictionEntry := ⟨"r2", "L", "t2", "", ""⟩

/-! ## Claim C4: idempotence of the normalization -/

/-- C4, counterexample.  The normalization is not idempotent: on the input
consisting of an encoded paragraph tag, one application yields the literal
tag (entities are decoded last), and a second application strips it. -/
theorem claim_normalize_idempotent_counterexample :
    normalize_text (normalize_text "&lt;p&gt;") ≠ normalize_text "&lt;p&gt;" := by
  decide

/-- C4, amended.  The normalization pipeline decodes HTML entities after
stripping markup, so its output can contain markup characters that a
second application removes: the encoded paragraph tag normalizes to the
literal tag, which itself normalizes to the empty string. -/
theorem claim_normalize_not_idempotent :
    normalize_text "&lt;p&gt;" = "<p>" ∧ normalize_text "<p>" = "" := by
  decide

/-! ## Claim C5: the formatter fixture -/

/-- C5, counterexample.  With the arguments bound in the code's
(item_code, restrictions, provider_num) order, the fixture call does not
return the string the claim asserts: the provider slot receives the
restriction text and vice versa. -/
theorem claim_format_argument_order_counterexample :
    format_authority_application "000000" "12119W" "Patient must have WHO status 0 or 1" ≠
      "Hospital Provider Number [000000]\n12119W\nPatient must have WHO status 0 or 1" := by
  decide

/-- C5, amended.  The claimed three-line output is produced when the values
are bound to the code's parameters as item_code = 12119W, restrictions =
the restriction text, provider_num = 000000; in general the function never
fails and splices its arguments verbatim, the restriction text as the
final segment after the second newline. -/
theorem claim_format_argument_order_amended :
    format_authority_application "12119W" "Patient must have WHO status 0 or 1" "000000" =
      "Hospital Provider Number [000000]\n12119W\nPatient must have WHO status 0 or 1"
    ∧ ∀ (item_code restrictions provider_num : String),
        format_authority_application item_code restrictions provider_num =
          "Hospital Provider Number [" ++ provider_num ++ "]\n" ++ item_code ++ "\n" ++ restrictions :=
  ⟨by decide, fun _ _ _ => rfl⟩

/-! ## Claim C8: tolerated response shapes -/

/-- C8, counterexample.  A bare top-level array is not processed like the
object shape on the schedules endpoint of the code-lookup path: it falls
into the unexpected-structure error branch. -/
theorem claim_bare_array_counterexample :
    extract_schedules_by_code (ApiResp.bare [schedSample]) ≠
      extract_schedules_by_code (ApiResp.objWithData [schedSample]) := by
  decide

/-- C8, amended.  Only the item-restriction-relationships and restrictions
responses accept a bare top-level array as equivalent to the object shape;
the schedules and items responses of both lookup paths treat a bare array
as an error. -/
theorem claim_bare_array_amended :
    ∀ (α : Type) (d : List α),
      extract_relationships (ApiResp.bare d) = extract_relationships (ApiResp.objWithData d)
      ∧ extract_restrictions (ApiResp.bare d) = extract_restrictions (ApiResp.objWithData d)
      ∧ extract_schedules_by_code (ApiResp.bare d) = none
      ∧ extract_items_by_code (ApiResp.bare d) = none
      ∧ extract_schedules_search (ApiResp.bare d) = none
      ∧ extract_items_search (ApiResp.bare d) = none :=
  fun _ _ => ⟨rfl, rfl, rfl, rfl, rfl, rfl⟩

/-! ## Claim C2: behaviour of the search when nothing matches -/

/-- C2, counterexample.  With query xyz against a single item named Abc,
no drug name contains the query, yet the function returns the full
upstream list rather than the empty list. -/
theorem claim_search_empty_counterexample :
    findIn (pyLower "xyz").toList (item_drug itemAbc).toList = false
    ∧ search_items_filter "xyz" [itemAbc] ≠ [] := by
  decide

/-- C2, amended.  When no item's drug name contains the query, the
client-side filter keeps nothing and the code falls back to returning the
unfiltered upstream list; the empty list comes back only when the upstream
list itself is empty. -/
theorem claim_search_no_match_fallback :
    ∀ (drug_name : String) (items : List Item),
      (∀ it ∈ items, findIn (pyLower drug_name).toList (item_drug it).toList = false) →
      search_items_filter drug_name items = items := by
  intro drug_name items hall
  by_cases hq : drug_name ≠ ""
  · simp only [search_items_filter, if_pos hq]
    have hf : items.filter
        (fun item => findIn (pyLower drug_name).toList (item_drug item).toList) = [] := by
      rw [List.filter_eq_nil_iff]
      intro it hmem
      rw [hall it hmem]
      exact Bool.false_ne_true
    rw [hf, if_pos rfl]
  · simp only [search_items_filter, if_neg hq]

/-- C2, witness for the amended claim at the concrete fixture. -/
theorem claim_search_no_match_fallback_witness :
    search_items_filter "xyz" [itemAbc] = [itemAbc] :=
  claim_search_no_match_fallback "xyz" [itemAbc] (by decide)

/-! ## Claim C6: no application block without authority -/

/-- C6.  The display flow builds an application block only when the benefit
type code is A or S: an Unrestricted item, and more generally any item
whose benefit type code is neither A nor S, yields none, so the formatter
is never invoked for it. -/
theorem claim_unrestricted_no_application :
    ∀ (item_data : Item) (restriction_list : List RestrictionEntry)
      (selected_label provider_number : String),
      (item_data.benefit_type_code.getD "" = "U" →
        display_application item_data restriction_list selected_label provider_number = none)
      ∧ (¬(item_data.benefit_type_code.getD "" = "A" ∨ item_data.benefit_type_code.getD "" = "S") →
        display_application item_data restriction_list selected_label provider_number = none) := by
  intro item_data restriction_list selected_label provider_number
  constructor
  · intro hU
    simp only [display_application]
    rw [hU]
    rw [if_neg (by decide)]
  · intro hns
    simp only [display_application]
    rw [if_neg hns]

/-- C6, witness at a concrete Unrestricted item. -/
theorem claim_unrestricted_no_application_witness :
    display_application itemUnrestricted [] "" "000000" = none :=
  (claim_unrestricted_no_application itemUnrestricted [] "" "000000").1 rfl

/-! ## Claim C9: surfacing of upstream failures in restriction resolution -/

/-- C9, counterexample.  A non-success status on the relationship fetch is
not surfaced: with status 500 the function emits no message at all and
returns the empty candidate list, the outcome reserved for valid responses
with no matches. -/
theorem claim_restriction_errors_silent_counterexample :
    get_restriction_texts (Fetch.resp 500 (some (ApiResp.objWithData ([] : List RelRow))))
      (Fetch.resp 200 (some (ApiResp.objWithData ([] : List RestrictionRec)))) = ([], []) := by
  decide

/-- C9, amended.  A timeout or an unparseable payload raises and is
surfaced through the warning in the except branch, but a non-success
status on either fetch returns the empty list silently, with no message. -/
theorem claim_restriction_errors_surfacing :
    ∀ (res : Fetch RestrictionRec) (status : Nat) (body : Option (ApiResp RelRow))
      (status2 : Nat) (body2 : Option (ApiResp RestrictionRec)),
      (get_restriction_texts Fetch.timeout res).1 ≠ []
      ∧ (get_restriction_texts (Fetch.resp 200 none) res).1 ≠ []
      ∧ (status ≠ 200 → get_restriction_texts (Fetch.resp status body) res = ([], []))
      ∧ (get_restriction_texts (Fetch.resp 200 (some (ApiResp.objWithData [⟨some "R1"⟩])))
          Fetch.timeout).1 ≠ []
      ∧ (status2 ≠ 200 →
          get_restriction_texts (Fetch.resp 200 (some (ApiResp.objWithData [⟨some "R1"⟩])))
            (Fetch.resp status2 body2) = ([], [])) := by
  intro res status body status2 body2
  refine ⟨by simp [get_restriction_texts], by simp [get_restriction_texts], ?_, by decide, ?_⟩
  · intro h
    simp only [get_restriction_texts]
    rw [if_pos h]
  · intro h2
    simp only [get_restriction_texts]
    simp only [if_neg h2]
    decide

/-- C9, witness discharging the status hypotheses at concrete statuses. -/
theorem claim_restriction_errors_surfacing_witness :
    get_restriction_texts (Fetch.resp 500 none) (Fetch.resp 200 none) = ([], [])
    ∧ get_restriction_texts (Fetch.resp 200 (some (ApiResp.objWithData [⟨some "R1"⟩])))
        (Fetch.resp 503 none) = ([], []) :=
  ⟨(claim_restriction_errors_surfacing (Fetch.resp 200 none) 500 none 503 none).2.2.1 (by decide),
   (claim_restriction_errors_surfacing (Fetch.resp 200 none) 500 none 503 none).2.2.2.2 (by decide)⟩

/-! ## Claim C1: exact case-insensitive match preferred in get_item_by_code -/

/-- C1.  When the returned item list contains an entry whose pbs_code
matches the looked-up code case-insensitively, the selection step returns
an entry with that property - never a non-matching entry, wherever the
match sits in the list; when no entry matches exactly, it returns the
first returned candidate. -/
theorem claim_item_code_exact_match :
    ∀ (item_code : String) (items : List Item),
      ((∃ it ∈ items, pyUpper (it.pbs_code.getD "") = pyUpper item_code) →
        ∃ it, get_item_by_code_select item_code items = some it ∧ it ∈ items ∧
          pyUpper (it.pbs_code.getD "") = pyUpper item_code)
      ∧ ((∀ it ∈ items, pyUpper (it.pbs_code.getD "") ≠ pyUpper item_code) →
        get_item_by_code_select item_code items = items.head?) := by
  intro item_code items
  cases items with
  | nil =>
    constructor
    · rintro ⟨it, hmem, -⟩
      exact absurd hmem (List.not_mem_nil it)
    · intro _
      rfl
  | cons a l =>
    have hlen : 0 < (a :: l).length := Nat.succ_pos _
    constructor
    · rintro ⟨it, hmem, hit⟩
      have hpmem : it ∈ (a :: l).filter
          (fun item => pyUpper (item.pbs_code.getD "") == pyUpper item_code) :=
        List.mem_filter.mpr ⟨hmem, beq_iff_eq.mpr hit⟩
      cases hf : (a :: l).filter
          (fun item => pyUpper (item.pbs_code.getD "") == pyUpper item_code) with
      | nil =>
        rw [hf] at hpmem
        exact absurd hpmem (List.not_mem_nil it)
      | cons m ms =>
        have hm : m ∈ (a :: l).filter
            (fun item => pyUpper (item.pbs_code.getD "") == pyUpper item_code) := by
          rw [hf]
          exact List.mem_cons_self m ms
        obtain ⟨hmmem, hmp⟩ := List.mem_filter.mp hm
        refine ⟨m, ?_, hmmem, beq_iff_eq.mp hmp⟩
        unfold get_item_by_code_select
        rw [if_pos hlen, hf]
    · intro hall
      have hf : (a :: l).filter
          (fun item => pyUpper (item.pbs_code.getD "") == pyUpper item_code) = [] := by
        rw [List.filter_eq_nil_iff]
        intro it hmem
        intro hb
        exact hall it hmem (beq_iff_eq.mp hb)
      unfold get_item_by_code_select
      rw [if_pos hlen, hf]

/-- C1, witness.  In a two-item response where the exact match sits second
and its stored code differs only by case, the selection returns it. -/
theorem claim_item_code_exact_match_witness :
    ∃ it, get_item_by_code_select "12119W" [itemOther, itemMatch] = some it ∧
      it ∈ [itemOther, itemMatch] ∧
      pyUpper (it.pbs_code.getD "") = pyUpper "12119W" :=
  (claim_item_code_exact_match "12119W" [itemOther, itemMatch]).1
    ⟨itemMatch, by decide, by decide⟩

/-! ## Claim C3: the client-side filter is case-insensitive and substring-based -/

/-- Auxiliary: the drug-name string of an item whose li_drug_name field is
the fixture name lowers to pembrolizumab whatever its other fields are. -/
theorem item_drug_of_pembro (it : Item) (h : it.li_drug_name = some "Pembrolizumab") :
    item_drug it = "pembrolizumab" := by
  have hne : ¬("Pembrolizumab" : String) = "" := by decide
  simp only [item_drug, pyOrOpt, pyOr, h, if_neg hne]
  decide

/-- Auxiliary: an item whose drug-name string contains the query survives
the client-side post-processing of search_items. -/
theorem mem_search_items_filter (q : String) (items : List Item) (it : Item)
    (hq : q ≠ "") (hmem : it ∈ items)
    (hmatch : findIn (pyLower q).toList (item_drug it).toList = true) :
    it ∈ search_items_filter q items := by
  simp only [search_items_filter, if_pos hq]
  have hf : it ∈ items.filter
      (fun item => findIn (pyLower q).toList (item_drug item).toList) :=
    List.mem_filter.mpr ⟨hmem, hmatch⟩
  rw [if_neg (List.ne_nil_of_mem hf)]
  exact hf

/-- C3.  An item whose drug name is Pembrolizumab is kept by the
client-side filter for each of the queries pembro, PEMBRO and embroliz:
the comparison lowers both sides and tests substring containment. -/
theorem claim_search_substring_case_insensitive :
    ∀ (items : List Item) (it : Item), it ∈ items →
      it.li_drug_name = some "Pembrolizumab" →
      it ∈ search_items_filter "pembro" items
      ∧ it ∈ search_items_filter "PEMBRO" items
      ∧ it ∈ search_items_filter "embroliz" items := by
  intro items it hmem h
  refine ⟨?_, ?_, ?_⟩ <;>
    exact mem_search_items_filter _ items it (by decide) hmem
      (by rw [item_drug_of_pembro it h]; decide)

/-- C3, witness at a concrete one-item list. -/
theorem claim_search_substring_case_insensitive_witness :
    itemPembro ∈ search_items_filter "pembro" [itemPembro]
    ∧ itemPembro ∈ search_items_filter "PEMBRO" [itemPembro]
    ∧ itemPembro ∈ search_items_filter "embroliz" [itemPembro] :=
  claim_search_substring_case_insensitive [itemPembro] itemPembro (by decide) rfl

/-! ## Claim C7: version resolution picks the maximum schedule_code -/

/-- Auxiliary: inserting into the descending sort neither adds nor loses
elements. -/
theorem mem_sortDescInsert {z x : Schedule} :
    ∀ {l : List Schedule}, z ∈ sortDescInsert x l ↔ z = x ∨ z ∈ l := by
  intro l
  induction l with
  | nil => simp [sortDescInsert]
  | cons y ys ih =>
    by_cases hxy : skey x ≤ skey y
    · simp only [sortDescInsert, if_pos hxy, List.mem_cons, ih]
      tauto
    · simp only [sortDescInsert, if_neg hxy, List.mem_cons]

/-- Auxiliary: insertion preserves the descending-by-key pairwise order. -/
theorem pairwise_sortDescInsert {x : Schedule} :
    ∀ {l : List Schedule}, l.Pairwise (fun a b => skey b ≤ skey a) →
      (sortDescInsert x l).Pairwise (fun a b => skey b ≤ skey a) := by
  intro l
  induction l with
  | nil =>
    intro _
    simp [sortDescInsert]
  | cons y ys ih =>
    intro hp
    rw [List.pairwise_cons] at hp
    obtain ⟨hy, hys⟩ := hp
    by_cases hxy : skey x ≤ skey y
    · simp only [sortDescInsert, if_pos hxy]
      rw [List.pairwise_cons]
      constructor
      · intro z hz
        rcases mem_sortDescInsert.mp hz with rfl | hz₁
        · exact hxy
        · exact hy z hz₁
      · exact ih hys
    · simp only [sortDescInsert, if_neg hxy]
      rw [List.pairwise_cons]
      constructor
      · intro z hz
        rcases List.mem_cons.mp hz with rfl | hz₁
        · exact le_of_lt (lt_of_not_le hxy)
        · exact le_trans (hy z hz₁) (le_of_lt (lt_of_not_le hxy))
      · exact List.pairwise_cons.mpr ⟨hy, hys⟩

/-- Auxiliary: membership through the whole fold. -/
theorem mem_foldl_sortDescInsert :
    ∀ (l acc : List Schedule) (z : Schedule),
      z ∈ l.foldl (fun acc x => sortDescInsert x acc) acc ↔ z ∈ acc ∨ z ∈ l := by
  intro l
  induction l with
  | nil =>
    intro acc z
    simp
  | cons a l ih =>
    intro acc z
    rw [List.foldl_cons, ih]
    rw [show (z ∈ sortDescInsert a acc) = (z = a ∨ z ∈ acc) from propext mem_sortDescInsert]
    simp only [List.mem_cons]
    tauto

/-- Auxiliary: the fold keeps the accumulator pairwise-sorted. -/
theorem pairwise_foldl_sortDescInsert :
    ∀ (l acc : List Schedule), acc.Pairwise (fun a b => skey b ≤ skey a) →
      (l.foldl (fun acc x => sortDescInsert x acc) acc).Pairwise (fun a b => skey b ≤ skey a) := by
  intro l
  induction l with
  | nil =>
    intro acc h
    exact h
  | cons a l ih =>
    intro acc h
    rw [List.foldl_cons]
    exact ih _ (pairwise_sortDescInsert h)

/-- C7.  On a non-empty schedule list, the selected entry is a member of
the list whose key - the schedule_code with 0 for a missing field - is
greatest among all entries, whatever the order of the array; and an entry
without a schedule_code has key 0. -/
theorem claim_latest_schedule_max :
    ∀ (schedules : List Schedule), schedules ≠ [] →
      (∃ sel, latest_schedule schedules = some sel ∧ sel ∈ schedules ∧
        ∀ s ∈ schedules, skey s ≤ skey sel)
      ∧ ∀ (d : Option String), skey ⟨none, d⟩ = 0 := by
  intro schedules hne
  refine ⟨?_, fun _ => rfl⟩
  cases schedules with
  | nil => exact absurd rfl hne
  | cons a l =>
    have hsorted : (sortedByCodeDesc (a :: l)).Pairwise (fun a b => skey b ≤ skey a) :=
      pairwise_foldl_sortDescInsert _ _ List.Pairwise.nil
    have hmema : a ∈ sortedByCodeDesc (a :: l) :=
      (mem_foldl_sortDescInsert _ _ _).mpr (Or.inr (List.mem_cons_self a l))
    cases hs : sortedByCodeDesc (a :: l) with
    | nil =>
      rw [hs] at hmema
      exact absurd hmema (List.not_mem_nil a)
    | cons h t =>
      have hhead : h ∈ sortedByCodeDesc (a :: l) := by
        rw [hs]
        exact List.mem_cons_self h t
      refine ⟨h, ?_, ?_, ?_⟩
      · unfold latest_schedule
        rw [hs]
        rfl
      · rcases (mem_foldl_sortDescInsert _ _ _).mp hhead with habs | hin
        · exact absurd habs (List.not_mem_nil h)
        · exact hin
      · intro s hsmem
        have hsin : s ∈ sortedByCodeDesc (a :: l) :=
          (mem_foldl_sortDescInsert _ _ _).mpr (Or.inr hsmem)
        rw [hs] at hsin hsorted
        rcases List.mem_cons.mp hsin with rfl | hst
        · exact le_refl _
        · exact (List.pairwise_cons.mp hsorted).1 s hst

/-- C7, witness on a three-entry list given out of order, one entry
lacking its schedule_code. -/
theorem claim_latest_schedule_max_witness :
    ∃ sel, latest_schedule [(⟨some 2, none⟩ : Schedule), ⟨some 5, none⟩, ⟨none, none⟩] = some sel ∧
      sel ∈ [(⟨some 2, none⟩ : Schedule), ⟨some 5, none⟩, ⟨none, none⟩] ∧
      ∀ s ∈ [(⟨some 2, none⟩ : Schedule), ⟨some 5, none⟩, ⟨none, none⟩], skey s ≤ skey sel :=
  (claim_latest_schedule_max [⟨some 2, none⟩, ⟨some 5, none⟩, ⟨none, none⟩] (by decide)).1

/-! ## Claim C10: the dropdown choice set is keyed by label -/

/-- Auxiliary: inserting a key either leaves the key list unchanged or
appends the new key at the end. -/
theorem dictKeys_dictInsert (k : String) (v : RestrictionEntry) :
    ∀ (d : List (String × RestrictionEntry)),
      dictKeys (dictInsert k v d) =
        if k ∈ dictKeys d then dictKeys d else dictKeys d ++ [k] := by
  intro d
  induction d with
  | nil => simp [dictInsert, dictKeys]
  | cons p rest ih =>
    obtain ⟨k₁, v₁⟩ := p
    by_cases hk : k₁ = k
    · subst hk
      simp [dictInsert, dictKeys]
    · have hk₂ : ¬k = k₁ := fun h => hk h.symm
      by_cases hmem : k ∈ dictKeys rest
      · simp only [dictInsert, if_neg hk, dictKeys, List.map_cons] at *
        simp [List.mem_cons, hk₂, hmem, ih]
      · simp only [dictInsert, if_neg hk, dictKeys, List.map_cons] at *
        simp [List.mem_cons, hk₂, hmem, ih]

/-- Auxiliary: looking up after an insertion sees the inserted value for
that key and is otherwise unchanged. -/
theorem dictFind_dictInsert (k : String) (v : RestrictionEntry) (q : String) :
    ∀ (d : List (String × RestrictionEntry)),
      dictFind q (dictInsert k v d) = if q = k then some v else dictFind q d := by
  intro d
  induction d with
  | nil =>
    by_cases hq : q = k
    · subst hq
      simp [dictInsert, dictFind]
    · have : ¬k = q := fun h => hq h.symm
      simp [dictInsert, dictFind, hq, this]
  | cons p rest ih =>
    obtain ⟨k₁, v₁⟩ := p
    by_cases hk : k₁ = k
    · subst hk
      by_cases hq : q = k₁
      · subst hq
        simp [dictInsert, dictFind]
      · have : ¬k₁ = q := fun h => hq h.symm
        simp [dictInsert, dictFind, hq, this]
    · by_cases hq : k₁ = q
      · subst hq
        simp [dictInsert, dictFind, hk]
      · simp [dictInsert, dictFind, hk, hq, ih]

/-- Auxiliary: key list of the fold, as a fold over the labels. -/
theorem dictKeys_foldl :
    ∀ (l : List RestrictionEntry) (d : List (String × RestrictionEntry)),
      dictKeys (l.foldl (fun d r => dictInsert r.label r d) d) =
        (l.map RestrictionEntry.label).foldl
          (fun acc x => if x ∈ acc then acc else acc ++ [x]) (dictKeys d) := by
  intro l
  induction l with
  | nil =>
    intro d
    rfl
  | cons a l ih =>
    intro d
    rw [List.foldl_cons, ih, dictKeys_dictInsert, List.map_cons, List.foldl_cons]

/-- Auxiliary: lookup through the fold returns the last entry with the
looked-up label, falling back to the initial dict. -/
theorem dictFind_foldl :
    ∀ (l : List RestrictionEntry) (d : List (String × RestrictionEntry)) (lab : String),
      dictFind lab (l.foldl (fun d r => dictInsert r.label r d) d) =
        (l.reverse.find? (fun r => r.label == lab)).or (dictFind lab d) := by
  intro l
  induction l with
  | nil =>
    intro d lab
    rfl
  | cons a l ih =>
    intro d lab
    rw [List.foldl_cons, ih, List.reverse_cons, List.find?_append, Option.or_assoc]
    have hinner : dictFind lab (dictInsert a.label a d) =
        ([a].find? (fun r => r.label == lab)).or (dictFind lab d) := by
      rw [dictFind_dictInsert, List.find?_singleton]
      by_cases hl : a.label = lab
      · rw [if_pos hl.symm, if_pos (beq_iff_eq.mpr hl)]
        rfl
      · rw [if_neg (fun hh => hl hh.symm), if_neg (by simpa using hl)]
        rfl
    rw [hinner]

/-- Auxiliary: the first-occurrence fold keeps its accumulator free of
duplicates. -/
theorem nodup_firstOcc_foldl :
    ∀ (l acc : List String), acc.Nodup →
      (l.foldl (fun acc x => if x ∈ acc then acc else acc ++ [x]) acc).Nodup := by
  intro l
  induction l with
  | nil =>
    intro acc h
    exact h
  | cons a l ih =>
    intro acc h
    rw [List.foldl_cons]
    by_cases hmem : a ∈ acc
    · rw [if_pos hmem]
      exact ih acc h
    · rw [if_neg hmem]
      refine ih _ ?_
      rw [List.nodup_append]
      exact ⟨h, List.nodup_singleton a, by simpa [List.disjoint_singleton] using hmem⟩

/-- C10.  With more than one restriction candidate, the dropdown dict is
keyed by label: its key list is the distinct labels in first-occurrence
order with no duplicates, and looking a label up yields the last candidate
in list order bearing it - so earlier candidates with a duplicated label
can never be chosen. -/
theorem claim_dropdown_label_keyed (l : List RestrictionEntry) (lab : String)
    (_hmany : 1 < l.length) :
    dictKeys (restriction_options l) = firstOccurrences (l.map RestrictionEntry.label)
    ∧ (dictKeys (restriction_options l)).Nodup
    ∧ dictFind lab (restriction_options l) = l.reverse.find? (fun r => r.label == lab) := by
  have hkeys : dictKeys (restriction_options l) = firstOccurrences (l.map RestrictionEntry.label) := by
    have := dictKeys_foldl l []
    simpa [restriction_options, firstOccurrences, dictKeys] using this
  refine ⟨hkeys, ?_, ?_⟩
  · rw [hkeys]
    exact nodup_firstOcc_foldl _ [] List.nodup_nil
  · rw [restriction_options, dictFind_foldl l [] lab]
    exact Option.or_none

/-- C10, witness: two candidates share the label L; the key list is the
single label and the lookup returns the second candidate. -/
theorem claim_dropdown_label_keyed_witness :
    dictKeys (restriction_options [entryOne, entryTwo]) =
      firstOccurrences ([entryOne, entryTwo].map RestrictionEntry.label)
    ∧ (dictKeys (restriction_options [entryOne, entryTwo])).Nodup
    ∧ dictFind "L" (restriction_options [entryOne, entryTwo]) =
        [entryOne, entryTwo].reverse.find? (fun r => r.label == "L") :=
  claim_dropdown_label_keyed [entryOne, entryTwo] "L" (by decide)
